import Mathlib

/-!
Shallow embedding of the selector-driven extraction engine
(`SelectorToDB/generic_scraper.py`), the validation analyzer
(`SelectorToDB/data_analysis.py`) and the structural summary module
(`summaryModulle/main.py`).

External capabilities (the BeautifulSoup / lxml DOM query primitives, the
Python regex engine, the clock) are modelled as explicit function
parameters; the engine logic itself (fallback iteration, sentinels,
cleanup, normalization, validation arithmetic, signature grouping) is
translated line by line from the source.  Percentages and confidence
scores are modelled as exact rationals.
-/

namespace Spec2Proof

/-! ### Python string helpers

`str.strip` and `re.sub(r'\s+', ' ', _)` over ASCII whitespace, as used by
`GenericPlatformScraper.clean_text`. -/

/-- Python `\s` / `str.strip` whitespace (ASCII range). -/
def isPySpace (c : Char) : Bool :=
  c = ' ' || c = '\t' || c = '\n' || c = '\r' || c = '\x0b' || c = '\x0c'

/-- `str.strip()` on a character list: drop whitespace from both ends. -/
def stripList (l : List Char) : List Char :=
  ((l.dropWhile isPySpace).reverse.dropWhile isPySpace).reverse

/-- `str.strip()` on strings. -/
def stripStr (s : String) : String :=
  String.mk (stripList s.data)

/-- `re.sub(r'\s+', ' ', _)`: collapse every whitespace run to one space. -/
def squeeze : List Char → List Char
  | [] => []
  | [c] => [if isPySpace c then ' ' else c]
  | c1 :: c2 :: rest =>
    if isPySpace c1 && isPySpace c2 then squeeze (c2 :: rest)
    else (if isPySpace c1 then ' ' else c1) :: squeeze (c2 :: rest)

/-- `GenericPlatformScraper.clean_text`: empty text gives the sentinel,
otherwise strip, collapse whitespace runs, replace newline/tab by spaces
(a no-op after the collapse, kept for fidelity), sentinel if empty. -/
def clean_text (text : String) : String :=
  if text = "" then "N/A"
  else
    let t := String.mk ((squeeze (stripList text.data)).map
      (fun c => if c = '\n' || c = '\t' then ' ' else c))
    if t = "" then "N/A" else t

/-- `GenericPlatformScraper.clean_with_regex`: `re.search(pattern, text)`,
returning the matched group on success and the text unchanged otherwise
(also on a regex error, which the source folds into the same fallthrough).
The regex engine is the abstract parameter `search pattern text`. -/
def clean_with_regex (search : String → String → Option String)
    (text pat : String) : String :=
  match search pat text with
  | some m => m
  | none => text

/-! ### SelectorSpec model (`selector_config` dictionaries) -/

/-- One field's entry of `selector_config`.  `ftype` is
`field_config.get('type')` (the `'css'` default is applied at use),
`attr` is `field_config.get('attribute')`, `regex` the cleanup pattern. -/
structure FieldConfig where
  selectors : List String := []
  ftype : Option String := none
  attr : Option String := none
  regex : Option String := none
deriving DecidableEq, Repr

/-- The `product_container` entry: `get('type')` and
`get('selectors', ['div'])` (the default is applied at use). -/
structure ContainerConfig where
  ctype : Option String := none
  selectors : Option (List String) := none
deriving DecidableEq, Repr

/-- The whole `selector_config` dictionary: the container entry plus the
nine extractable fields, each possibly absent. -/
structure SelectorConfig where
  product_container : Option ContainerConfig := none
  name : Option FieldConfig := none
  current_price : Option FieldConfig := none
  original_price : Option FieldConfig := none
  rating : Option FieldConfig := none
  reviews : Option FieldConfig := none
  discount : Option FieldConfig := none
  offers : Option FieldConfig := none
  delivery : Option FieldConfig := none
  availability : Option FieldConfig := none
deriving DecidableEq, Repr

/-- The fixed record schema produced by `extract_product_data`. -/
structure ProductRecord where
  index : Nat
  name : String
  current_price : String
  original_price : String
  rating : String
  reviews : String
  discount : String
  offers : String
  delivery : String
  availability : String
  site : String
  scraped_at : String
deriving DecidableEq, Repr

/-! ### Extraction engine (`generic_scraper.py`) -/

/-- The tail of `extract_field` once a selector's raw value won
(`if value and value != 'N/A': ...`): when a cleanup regex is configured
(`if regex_pattern`, so a configured empty pattern is falsy and skipped)
and the field type is not `'regex'`, the regex-cleaned value is returned
directly when nonempty; otherwise the raw value is normalized by
`clean_text`. -/
def postprocess (search : String → String → Option String)
    (cfg : FieldConfig) (value : String) : String :=
  match cfg.regex with
  | some pat =>
    if pat ≠ "" && (cfg.ftype.getD "css") ≠ "regex" then
      let cleaned := clean_with_regex search value pat
      if cleaned ≠ "" then cleaned else clean_text value
    else clean_text value
  | none => clean_text value

/-- The selector loop of `extract_field`.  `rawOf s` abstracts the raw
value the configured low-level extractor (`extract_with_css`,
`extract_with_xpath` or `extract_with_regex`, chosen by the field type)
returns for selector `s` on the current container; those primitives
signal "no value" with `''` or the `'N/A'` sentinel, and a per-selector
exception (caught and skipped in the source) is folded into the same
outcome. -/
def extract_field_go (rawOf : String → String)
    (search : String → String → Option String)
    (cfg : FieldConfig) : List String → String
  | [] => "N/A"
  | s :: rest =>
    let value := rawOf s
    if value ≠ "" && value ≠ "N/A" then postprocess search cfg value
    else extract_field_go rawOf search cfg rest

/-- `GenericPlatformScraper.extract_field` for a configured field. -/
def extract_field (rawOf : String → String)
    (search : String → String → Option String) (cfg : FieldConfig) : String :=
  extract_field_go rawOf search cfg cfg.selectors

/-- The selector loop of `find_product_containers`: the first selector
whose query yields at least one element fixes the container set
(`containers.extend(elements); break`), starting from the empty list.
`query s` abstracts the document-level query (`soup.select` for CSS, the
lxml XPath evaluation for `type == 'xpath'`); a raised selector error
(caught and skipped) is folded into an empty result. -/
def find_containers_go {C : Type} (query : String → List C) :
    List String → List C
  | [] => []
  | s :: rest =>
    let elements := query s
    if elements.isEmpty then find_containers_go query rest else elements

/-- `GenericPlatformScraper.find_product_containers`, including the
`get('product_container', {})` and `get('selectors', ['div'])` defaults. -/
def find_product_containers {C : Type} (query : String → List C)
    (cfg : Option ContainerConfig) : List C :=
  find_containers_go query ((cfg.bind (·.selectors)).getD ["div"])

/-- The per-field body of `extract_product_data`: an unconfigured field
keeps its `'N/A'` default; a configured one is extracted, the result
replacing the default when truthy (`if value:`). -/
def extractedOr (raw : FieldConfig → String → String)
    (search : String → String → Option String)
    (ocfg : Option FieldConfig) : String :=
  match ocfg with
  | none => "N/A"
  | some cfg =>
    let value := extract_field (raw cfg) search cfg
    if value ≠ "" then value else "N/A"

/-- `GenericPlatformScraper.extract_product_data`: build the record with
`'N/A'` defaults, the 1-based index, the site label and the
`datetime.now().isoformat()` stamp (the clock reading is the explicit
parameter `now`), then fill each configured field.  `raw cfg s` abstracts
the low-level extraction primitives on this container. -/
def extract_product_data (raw : FieldConfig → String → String)
    (search : String → String → Option String) (sc : SelectorConfig)
    (site now : String) (index : Nat) : ProductRecord :=
  { index := index
    name := extractedOr raw search sc.name
    current_price := extractedOr raw search sc.current_price
    original_price := extractedOr raw search sc.original_price
    rating := extractedOr raw search sc.rating
    reviews := extractedOr raw search sc.reviews
    discount := extractedOr raw search sc.discount
    offers := extractedOr raw search sc.offers
    delivery := extractedOr raw search sc.delivery
    availability := extractedOr raw search sc.availability
    site := site
    scraped_at := now }

/-- `GenericPlatformScraper.validate_product_data`: reject when both name
and current price are empty or sentinel, then reject a truthy name shorter
than 2 characters. -/
def validate_product_data (r : ProductRecord) : Bool :=
  if (r.name = "" || r.name = "N/A") && (r.current_price = "" || r.current_price = "N/A") then
    false
  else if r.name ≠ "" && r.name.length < 2 then false
  else true

/-- `GenericPlatformScraper.parse_products`: discover containers, extract
a record per container with 1-based index in encounter order, keep those
passing `validate_product_data` (a record dictionary is always truthy, and
the per-product exception guard is vacuous in this total model). -/
def parse_products {C : Type} (query : String → List C)
    (raw : C → FieldConfig → String → String)
    (search : String → String → Option String) (sc : SelectorConfig)
    (site now : String) : List ProductRecord :=
  let containers := find_product_containers query sc.product_container
  (containers.enum.map
    (fun p => extract_product_data (raw p.2) search sc site now (p.1 + 1))).filter
    (fun r => validate_product_data r)

/-! ### Validation analyzer (`data_analysis.py`)

Percentage arithmetic is carried out in `ℚ`; the source's `"{:.1f}%"`
format / parse round trip through Python floats is modelled as exact. -/

/-- `SelectorAnalyzer._is_valid_data` on a string value: not the
sentinel, not empty, not whitespace-only (the `pd.isna` branch does not
arise for the engine's string fields). -/
def is_valid_data (v : String) : Bool :=
  !(v = "N/A" || v = "" || stripStr v = "")

/-- The nine extractable field names, in the order iterated by
`get_selector_performance`. -/
def fieldNames : List String :=
  ["name", "current_price", "original_price", "rating", "reviews",
   "discount", "offers", "delivery", "availability"]

/-- Projection of a `ProductRecord` by field name (the dictionary /
DataFrame column access of the source). -/
def getField (r : ProductRecord) (f : String) : String :=
  if f = "name" then r.name
  else if f = "current_price" then r.current_price
  else if f = "original_price" then r.original_price
  else if f = "rating" then r.rating
  else if f = "reviews" then r.reviews
  else if f = "discount" then r.discount
  else if f = "offers" then r.offers
  else if f = "delivery" then r.delivery
  else if f = "availability" then r.availability
  else if f = "site" then r.site
  else r.scraped_at

/-- `valid_count` for one field: records where `_is_valid_data` holds. -/
def validCount (records : List ProductRecord) (f : String) : Nat :=
  (records.filter (fun r => is_valid_data (getField r f))).length

/-- Per-field `success_rate = (valid_count / total_products) * 100`. -/
def success_rate (records : List ProductRecord) (f : String) : ℚ :=
  (validCount records f : ℚ) / (records.length : ℚ) * 100

/-- `get_selector_validation_report`'s
`sum(field_scores) / len(field_scores) if field_scores else 0`. -/
def overall_from_scores (scores : List ℚ) : ℚ :=
  if scores = [] then 0 else scores.sum / (scores.length : ℚ)

/-- The report's `overall_score`: the scores list holds one entry per
field of `field_performance` (for engine output every record carries all
columns, so all nine fields appear). -/
def overall_score (records : List ProductRecord) : ℚ :=
  overall_from_scores (fieldNames.map (success_rate records))

/-- The report's `overall_selector_health.status` conditional chain. -/
def overall_status (score : ℚ) : String :=
  if score ≥ 90 then "EXCELLENT"
  else if score ≥ 80 then "GOOD"
  else if score ≥ 60 then "NEEDS_IMPROVEMENT"
  else "POOR"

/-! #### `_extract_numeric_value`: `re.findall(r'\d+\.?\d*', text)[0]` -/

/-- Longest leading digit run of a character list, with the remainder. -/
def digitRun : List Char → List Char × List Char
  | [] => ([], [])
  | c :: rest =>
    if c.isDigit then
      let p := digitRun rest
      (c :: p.1, p.2)
    else ([], c :: rest)

/-- The first (leftmost) match of `\d+\.?\d*` in the character list,
returned as (integer digits, fractional digits): the leading digit run,
then optionally a dot and a further digit run (possibly empty). -/
def firstNumericToken : List Char → Option (List Char × List Char)
  | [] => none
  | c :: rest =>
    if c.isDigit then
      let p := digitRun (c :: rest)
      match p.2 with
      | '.' :: r2 => some (p.1, (digitRun r2).1)
      | _ => some (p.1, [])
    else firstNumericToken rest

/-- Digit characters to a natural number. -/
def natOfDigits (ds : List Char) : Nat :=
  ds.foldl (fun n c => n * 10 + (c.toNat - 48)) 0

/-- `float` of a matched `\d+\.?\d*` token, as an exact rational. -/
def tokenToQ (tok : List Char × List Char) : ℚ :=
  (natOfDigits tok.1 : ℚ) + (natOfDigits tok.2 : ℚ) / 10 ^ tok.2.length

/-- `SelectorAnalyzer._extract_numeric_value`: `None` for invalid data,
otherwise the first regex match converted to a number (`None` when no
digit occurs). -/
def extract_numeric_value (text : String) : Option ℚ :=
  if is_valid_data text then (firstNumericToken text.data).map tokenToQ
  else none

/-- Membership predicate of `validate_rating_selectors`'s
`numeric_extractions` count: `_extract_numeric_value(value).notna()`. -/
def countsNumeric (v : String) : Bool :=
  (extract_numeric_value v).isSome

/-- Membership predicate of the `valid_range_extractions` filter:
numeric value present and in `[0, 5]`. -/
def countsValidRange (v : String) : Bool :=
  match extract_numeric_value v with
  | some q => decide (0 ≤ q) && decide (q ≤ 5)
  | none => false

/-- `rating_numeric` of `validate_rating_selectors`: records whose rating
yields a numeric value. -/
def rating_numeric_count (records : List ProductRecord) : Nat :=
  (records.filter (fun r => countsNumeric r.rating)).length

/-- `valid_ratings` of `validate_rating_selectors`: guarded by
`rating_numeric > 0`, then the numeric ratings within `[0, 5]` counted
over the `dropna`'d column. -/
def valid_range_count (records : List ProductRecord) : Nat :=
  if rating_numeric_count records > 0 then
    ((records.filterMap (fun r => extract_numeric_value r.rating)).filter
      (fun q => decide (0 ≤ q) && decide (q ≤ 5))).length
  else 0

/-! ### Structural signature index (`summaryModulle/main.py`,
`build_signature_map`) -/

/-- The per-element data `build_signature_map` reads off an lxml element:
lowercased tag, the raw `class` value (`el.get('class') or ''`), the
number of immediate children that are real elements
(`len([ch for ch in el if isinstance(ch.tag, str)])`), and
`el.text_content() or ''`.  The iteration `root.xpath('//*')` with its
`isinstance(el.tag, str)` filter is modelled by the element list handed
to `build_signature_map`. -/
structure DomEl where
  tag : String
  classAttr : String
  childElemCount : Nat
  textContent : String
deriving DecidableEq, Repr

/-- Python `str.split()` (whitespace split, empties discarded) combined
with the source's `if c` filter. -/
def splitWS (s : String) : List String :=
  (s.split (fun c => isPySpace c)).filter (fun c => c ≠ "")

/-- `tuple(sorted([c for c in (el.get('class') or '').split() if c]))`. -/
def classTokens (el : DomEl) : List String :=
  (splitWS el.classAttr).mergeSort (fun a b => a ≤ b)

/-- `len((el.text_content() or '').strip())`. -/
def textLen (el : DomEl) : Nat :=
  (stripStr el.textContent).length

/-- `min(8, max(0, text_len // 30))`. -/
def textBucket (el : DomEl) : Nat :=
  min 8 (max 0 (textLen el / 30))

/-- The grouping signature
`(tag, sorted class-token tuple, element-child count, text bucket)`. -/
def signature (el : DomEl) : String × List String × Nat × Nat :=
  (el.tag.toLower, classTokens el, el.childElemCount, textBucket el)

/-- Append an element to its signature's group, creating the group at the
end on first sight (`defaultdict(list)` insertion order). -/
def insertSig (m : List ((String × List String × Nat × Nat) × List DomEl))
    (s : String × List String × Nat × Nat) (e : DomEl) :
    List ((String × List String × Nat × Nat) × List DomEl) :=
  match m with
  | [] => [(s, [e])]
  | (s0, g) :: rest =>
    if s0 = s then (s0, g ++ [e]) :: rest else (s0, g) :: insertSig rest s e

/-- `build_signature_map`: group the document's elements by signature. -/
def build_signature_map (els : List DomEl) :
    List ((String × List String × Nat × Nat) × List DomEl) :=
  els.foldl (fun m e => insertSig m (signature e) e) []

/-- Two elements fall in the same group of a signature map. -/
def sameGroup (m : List ((String × List String × Nat × Nat) × List DomEl))
    (e1 e2 : DomEl) : Prop :=
  ∃ p ∈ m, e1 ∈ p.2 ∧ e2 ∈ p.2

/-! ### Field hints and sample extractor (`summaryModulle/main.py`) -/

/-- `CURRENCY_PAT.pattern`. -/
def currencyPatSrc : String :=
  "(?:(?:₹|Rs\\.?|INR|USD|\\$|€|€\\s?)\\s?[0-9][0-9,]*(?:\\.\\d+)?)"

/-- `RATING_PAT.pattern`. -/
def ratingPatSrc : String :=
  "([0-9](?:\\.[0-9])?)\\s*(?:out of\\s*5|/5|★|stars?)"

/-- The static hint map of `detect_field_hints`. -/
structure Hints where
  title : List String
  price : List String
  image : List String
  link : List String
  rating : List String
deriving DecidableEq, Repr

/-- `detect_field_hints`: the fixed ordered strategy lists. -/
def detect_field_hints : Hints :=
  { title := [".//h1/text()", ".//h2//a//span/text()", ".//h2//text()",
      ".//h3//text()", "largest_text_in_container"]
    price := [".//span[contains(@class,\"a-offscreen\")]/text()",
      ".//span[contains(@class,\"price\")]/text()", "regex:" ++ currencyPatSrc]
    image := [".//img[1]/@src", ".//img[1]/@data-src", ".//img[1]/@data-image"]
    link := [".//a[1]/@href", ".//a[contains(@href,\"/dp/\")]/@href"]
    rating := [".//span[contains(@class,\"rating\")]/text()",
      ".//span[contains(@class,\"a-icon-alt\")]/text()", "regex:" ++ ratingPatSrc] }

/-- Python `str.startswith`, via character lists (kernel-reducible,
unlike the builtin byte-level `String.startsWith`). -/
def startsWithList : List Char → List Char → Bool
  | _, [] => true
  | [], _ :: _ => false
  | c :: cs, d :: ds => if c = d then startsWithList cs ds else false

/-- `s.startswith(pre)` on strings. -/
def pyStartsWith (s pre : String) : Bool :=
  startsWithList s.data pre.data

/-- The sample-extractor view of one lxml node.  `xpEval xp` is `some v`
when `node.xpath(xp)` succeeds with a nonempty result list, `v` being the
stripped string form of its first entry (`none` covers an empty result
list and a raised evaluation error).  `textNodes` are the raw
`.//text()` descendants, `currencyMatch` / `ratingMatch` the `group(0)`
of `re.search` with `CURRENCY_PAT` / `RATING_PAT` on the node's text
content, and `urljoin` the `urllib.parse.urljoin` primitive. -/
structure SNode where
  xpEval : String → Option String
  textNodes : List String
  currencyMatch : Option String
  ratingMatch : Option String
  urljoin : String → String → String

/-- `first_nonempty_xpath`: try the xpaths in order, skipping `regex:`
markers, returning the first nonempty stripped result. -/
def first_nonempty_xpath (nd : SNode) : List String → Option String
  | [] => none
  | xp :: rest =>
    if pyStartsWith xp "regex:" then first_nonempty_xpath nd rest
    else
      match nd.xpEval xp with
      | some v => if v ≠ "" then some v else first_nonempty_xpath nd rest
      | none => first_nonempty_xpath nd rest

/-- The plain first-hit loop used for the image hints (`if res: ...;
break` without a nonemptiness check on the stripped string). -/
def firstXpathRaw (nd : SNode) : List String → Option String
  | [] => none
  | xp :: rest =>
    match nd.xpEval xp with
    | some v => some v
    | none => firstXpathRaw nd rest

/-- Python `max(texts, key=len)`: first maximal element wins ties. -/
def maxByLen : List String → Option String
  | [] => none
  | x :: xs => some (xs.foldl (fun b t => if t.length > b.length then t else b) x)

/-- One `{value, confidence}` cell of the sample-extraction output. -/
structure ExtractedField where
  value : String
  confidence : ℚ
deriving DecidableEq, Repr

/-- The title branch of `extract_fields_from_node`: structural hit gives
confidence 0.9; otherwise the longest stripped descendant text, accepted
at confidence 0.5 when longer than 7 characters. -/
def extractTitle (nd : SNode) (hints : List String) : ExtractedField :=
  let title_xps := hints.filter (fun p => !(pyStartsWith p "regex:"))
  match first_nonempty_xpath nd title_xps with
  | some t => ⟨t, 9 / 10⟩
  | none =>
    let texts := (nd.textNodes.map stripStr).filter (fun t => t ≠ "")
    match maxByLen texts with
    | some candidate =>
      if candidate.length > 7 then ⟨stripStr candidate, 1 / 2⟩ else ⟨"", 0⟩
    | none => ⟨"", 0⟩

/-- The price branch: structural hit 0.9, currency-regex fallback 0.6. -/
def extractPrice (nd : SNode) (hints : List String) : ExtractedField :=
  let price_xps := hints.filter (fun p => !(pyStartsWith p "regex:"))
  match first_nonempty_xpath nd price_xps with
  | some p => ⟨p, 9 / 10⟩
  | none =>
    match nd.currencyMatch with
    | some p => if p ≠ "" then ⟨p, 6 / 10⟩ else ⟨"", 0⟩
    | none => ⟨"", 0⟩

/-- The image branch: first hint with a result, relative URLs joined
against the base URL, confidence 0.9 when the final value is truthy. -/
def extractImage (nd : SNode) (hints : List String) (base_url : Option String) :
    ExtractedField :=
  match firstXpathRaw nd hints with
  | some img =>
    let img :=
      match base_url with
      | some b => if img ≠ "" && pyStartsWith img "/" then nd.urljoin b img else img
      | none => img
    ⟨img, if img ≠ "" then 9 / 10 else 0⟩
  | none => ⟨"", 0⟩

/-- The link branch: hardcoded first-anchor xpath, relative URLs joined,
confidence 0.9 when truthy. -/
def extractLink (nd : SNode) (base_url : Option String) : ExtractedField :=
  match nd.xpEval ".//a[1]/@href" with
  | some l =>
    let link :=
      match base_url with
      | some b => if pyStartsWith l "/" then nd.urljoin b l else l
      | none => l
    ⟨link, if link ≠ "" then 9 / 10 else 0⟩
  | none => ⟨"", 0⟩

/-- The rating branch: `el.xpath(A) or el.xpath(B)` takes the first
nonempty result list (its first entry stripped), else the `RATING_PAT`
regex fallback on the node text; the confidence is `0.9 if rating else
0.0` on the final value, whatever produced it. -/
def extractRating (nd : SNode) : ExtractedField :=
  let rating : Option String :=
    match nd.xpEval ".//span[contains(@class,\"a-icon-alt\")]/text()" with
    | some v => some v
    | none =>
      match nd.xpEval ".//span[contains(@class,\"rating\")]/text()" with
      | some v => some v
      | none => nd.ratingMatch
  match rating with
  | some v => ⟨if v ≠ "" then v else "", if v ≠ "" then (9 : ℚ) / 10 else 0⟩
  | none => ⟨"", 0⟩

/-- The per-field dictionary of `extract_fields_from_node`. -/
structure FieldSamples where
  title : ExtractedField
  price : ExtractedField
  image : ExtractedField
  link : ExtractedField
  rating : ExtractedField
deriving DecidableEq, Repr

/-- `extract_fields_from_node`. -/
def extract_fields_from_node (nd : SNode) (hints : Hints)
    (base_url : Option String) : FieldSamples :=
  { title := extractTitle nd hints.title
    price := extractPrice nd hints.price
    image := extractImage nd hints.image base_url
    link := extractLink nd base_url
    rating := extractRating nd }

/-! ### Helper lemmas on the extraction loops -/

/-- A selector whose raw value is empty or the sentinel is skipped. -/
lemma extract_field_go_cons_bad (rawOf : String → String)
    (search : String → String → Option String) (cfg : FieldConfig)
    (s : String) (rest : List String)
    (h : rawOf s = "" ∨ rawOf s = "N/A") :
    extract_field_go rawOf search cfg (s :: rest) =
      extract_field_go rawOf search cfg rest := by
  simp only [extract_field_go]
  rcases h with h | h <;> simp [h]

/-- A selector with a nonempty, non-sentinel raw value wins at once. -/
lemma extract_field_go_cons_good (rawOf : String → String)
    (search : String → String → Option String) (cfg : FieldConfig)
    (s : String) (rest : List String)
    (h1 : rawOf s ≠ "") (h2 : rawOf s ≠ "N/A") :
    extract_field_go rawOf search cfg (s :: rest) =
      postprocess search cfg (rawOf s) := by
  simp only [extract_field_go]
  simp [h1, h2]

/-- A prefix of skipped selectors does not affect the outcome. -/
lemma extract_field_go_append_bad (rawOf : String → String)
    (search : String → String → Option String) (cfg : FieldConfig)
    (pre l : List String)
    (h : ∀ t ∈ pre, rawOf t = "" ∨ rawOf t = "N/A") :
    extract_field_go rawOf search cfg (pre ++ l) =
      extract_field_go rawOf search cfg l := by
  induction pre with
  | nil => rfl
  | cons t ts ih =>
    rw [List.cons_append,
      extract_field_go_cons_bad rawOf search cfg t (ts ++ l) (h t (by simp)),
      ih (fun x hx => h x (by simp [hx]))]

/-- When every selector is skipped the loop returns the sentinel. -/
lemma extract_field_go_all_bad (rawOf : String → String)
    (search : String → String → Option String) (cfg : FieldConfig)
    (l : List String) (h : ∀ t ∈ l, rawOf t = "" ∨ rawOf t = "N/A") :
    extract_field_go rawOf search cfg l = "N/A" := by
  have := extract_field_go_append_bad rawOf search cfg l [] h
  simpa using this

/-- A prefix of selectors with empty query results is skipped. -/
lemma find_containers_go_append_empty {C : Type} (query : String → List C)
    (pre l : List String) (h : ∀ t ∈ pre, query t = []) :
    find_containers_go query (pre ++ l) = find_containers_go query l := by
  induction pre with
  | nil => rfl
  | cons t ts ih =>
    rw [List.cons_append]
    simp only [find_containers_go]
    rw [h t (by simp)]
    simpa using ih (fun x hx => h x (by simp [hx]))

/-- When every container selector queries empty, no containers result. -/
lemma find_containers_go_all_empty {C : Type} (query : String → List C)
    (l : List String) (h : ∀ t ∈ l, query t = []) :
    find_containers_go query l = [] := by
  have := find_containers_go_append_empty query l [] h
  simpa using this

/-! ### Claims -/

/-- C1: for every container and every configured field with an ordered
selector list, `extract_field` tries the selectors in declared order and
returns the value derived from the first selector producing a nonempty
non-sentinel raw value (the low-level extractors signal "no value" by
`''` or the sentinel `'N/A'`), never a later selector's value — the
result does not depend on the selectors after the winner; if no selector
produces a value, the field is the sentinel `"N/A"` (the function is
total, so no exception arises). -/
theorem C1_fallback_determinism :
    (∀ (rawOf : String → String) (search : String → String → Option String)
       (cfg : FieldConfig) (pre post : List String) (s : String),
       cfg.selectors = pre ++ s :: post →
       (∀ t ∈ pre, rawOf t = "" ∨ rawOf t = "N/A") →
       rawOf s ≠ "" → rawOf s ≠ "N/A" →
       extract_field rawOf search cfg = postprocess search cfg (rawOf s)) ∧
    (∀ (rawOf : String → String) (search : String → String → Option String)
       (cfg : FieldConfig),
       (∀ t ∈ cfg.selectors, rawOf t = "" ∨ rawOf t = "N/A") →
       extract_field rawOf search cfg = "N/A") := by
  constructor
  · intro rawOf search cfg pre post s hsel hpre h1 h2
    unfold extract_field
    rw [hsel, extract_field_go_append_bad rawOf search cfg pre _ hpre,
      extract_field_go_cons_good rawOf search cfg s post h1 h2]
  · intro rawOf search cfg h
    exact extract_field_go_all_bad rawOf search cfg cfg.selectors h

/-- Witness for C1 at a concrete input: selector `A` wins with raw value
`hello`, selector `B` is never consulted; and with no productive
selector the sentinel results. -/
theorem C1_fallback_determinism_witness :
    extract_field (fun s => if s = "A" then "hello" else "world")
        (fun _ _ => none) ⟨["A", "B"], none, none, none⟩ = "hello" ∧
    extract_field (fun _ => "") (fun _ _ => none)
        ⟨["A", "B"], none, none, none⟩ = "N/A" := by
  constructor
  · have h := C1_fallback_determinism.1
      (fun s => if s = "A" then "hello" else "world") (fun _ _ => none)
      ⟨["A", "B"], none, none, none⟩ [] ["B"] "A" rfl (by simp)
      (by decide) (by decide)
    rw [h]; decide
  · exact C1_fallback_determinism.2 (fun _ => "") (fun _ _ => none)
      ⟨["A", "B"], none, none, none⟩ (by intro t _; left; rfl)

/-- C2: container discovery walks the `product_container` selector list
in order and fixes the container set at the first selector whose
document query is nonempty; with `["div.missing", "div.present"]` where
the first query is empty and the second yields 3 elements, exactly 3
containers are discovered; and when every selector queries empty,
`parse_products` returns the empty record list (no error). -/
theorem C2_container_discovery :
    (∀ (C : Type) (query : String → List C) (pre post : List String)
       (s : String),
       (∀ t ∈ pre, query t = []) → query s ≠ [] →
       find_containers_go query (pre ++ s :: post) = query s) ∧
    (∀ (C : Type) (query : String → List C) (cs : List C),
       query "div.missing" = [] → query "div.present" = cs → cs.length = 3 →
       (find_product_containers query
         (some ⟨some "css", some ["div.missing", "div.present"]⟩)).length = 3) ∧
    (∀ (C : Type) (query : String → List C)
       (raw : C → FieldConfig → String → String)
       (search : String → String → Option String) (sc : SelectorConfig)
       (site now : String),
       (∀ t ∈ (sc.product_container.bind (·.selectors)).getD ["div"],
          query t = []) →
       parse_products query raw search sc site now = []) := by
  refine ⟨?_, ?_, ?_⟩
  · intro C query pre post s hpre hs
    rw [find_containers_go_append_empty query pre _ hpre]
    simp only [find_containers_go]
    simp [List.isEmpty_iff, hs]
  · intro C query cs h1 h2 h3
    show (find_containers_go query ["div.missing", "div.present"]).length = 3
    simp only [find_containers_go]
    rw [h1, h2]
    have hne : cs.isEmpty = false := by
      cases cs with
      | nil => simp at h3
      | cons a l => rfl
    simp [hne, h3]
  · intro C query raw search sc site now h
    unfold parse_products find_product_containers
    rw [find_containers_go_all_empty query _ h]
    rfl

/-- Witness for C2 at concrete inputs over `C := Nat`. -/
theorem C2_container_discovery_witness :
    find_containers_go (fun s => if s = "div.present" then [7, 8, 9] else [])
        (["div.missing"] ++ "div.present" :: []) = [7, 8, 9] ∧
    (find_product_containers (fun s => if s = "div.present" then [7, 8, 9] else [])
        (some ⟨some "css", some ["div.missing", "div.present"]⟩)).length = 3 ∧
    parse_products (fun _ => ([] : List Nat)) (fun _ _ _ => "")
        (fun _ _ => none) {} "site" "now" = [] := by
  refine ⟨?_, ?_, ?_⟩
  · exact C2_container_discovery.1 Nat _ ["div.missing"] [] "div.present"
      (by decide) (by decide)
  · exact C2_container_discovery.2.1 Nat _ [7, 8, 9] (by decide) (by decide)
      (by decide)
  · exact C2_container_discovery.2.2 Nat _ _ _ {} "site" "now"
      (by intro t _; rfl)

/-- C3: the quality gate keeps a record only if its name or its current
price is not the `"N/A"` sentinel (so every record surviving
`parse_products` satisfies that disjunction), it drops a record with
`name = "N/A"` and `current_price = "N/A"`, and keeps one with
`name = "N/A"` and `current_price = "499"`. -/
theorem C3_quality_gate :
    (∀ r : ProductRecord, validate_product_data r = true →
       r.name ≠ "N/A" ∨ r.current_price ≠ "N/A") ∧
    (∀ (C : Type) (query : String → List C)
       (raw : C → FieldConfig → String → String)
       (search : String → String → Option String) (sc : SelectorConfig)
       (site now : String) (r : ProductRecord),
       r ∈ parse_products query raw search sc site now →
       r.name ≠ "N/A" ∨ r.current_price ≠ "N/A") ∧
    validate_product_data
      ⟨1, "N/A", "N/A", "N/A", "N/A", "N/A", "N/A", "N/A", "N/A", "N/A", "s", "t"⟩
      = false ∧
    validate_product_data
      ⟨1, "N/A", "499", "N/A", "N/A", "N/A", "N/A", "N/A", "N/A", "N/A", "s", "t"⟩
      = true := by
  have key : ∀ r : ProductRecord, validate_product_data r = true →
      r.name ≠ "N/A" ∨ r.current_price ≠ "N/A" := by
    intro r h
    by_contra hc
    push_neg at hc
    unfold validate_product_data at h
    rw [hc.1, hc.2] at h
    simp at h
  refine ⟨key, ?_, by decide, by decide⟩
  intro C query raw search sc site now r hr
  unfold parse_products at hr
  have := (List.mem_filter.mp hr).2
  exact key r (by simpa using this)

/-- Witness for C3: the gate's verdict on a concrete kept record implies
the name-or-price disjunction. -/
theorem C3_quality_gate_witness :
    (⟨1, "N/A", "499", "N/A", "N/A", "N/A", "N/A", "N/A", "N/A", "N/A", "s", "t"⟩
      : ProductRecord).name ≠ "N/A" ∨
    (⟨1, "N/A", "499", "N/A", "N/A", "N/A", "N/A", "N/A", "N/A", "N/A", "s", "t"⟩
      : ProductRecord).current_price ≠ "N/A" :=
  C3_quality_gate.1
    ⟨1, "N/A", "499", "N/A", "N/A", "N/A", "N/A", "N/A", "N/A", "N/A", "s", "t"⟩
    (by decide)

/-- C10: beyond the name-or-price sentinel gate, `validate_product_data`
drops every record whose name is a nonempty string shorter than 2
characters, regardless of the other fields. -/
theorem C10_short_name_dropped :
    ∀ r : ProductRecord, r.name ≠ "" → r.name.length < 2 →
      validate_product_data r = false := by
  intro r h1 h2
  unfold validate_product_data
  by_cases hna : r.name = "N/A"
  · exfalso
    rw [hna] at h2
    simp [String.length] at h2
  · simp [h1, h2, hna]

/-- Witness for C10: a record with name `"X"` and a valid current price
`"499"` is dropped. -/
theorem C10_short_name_dropped_witness :
    validate_product_data
      ⟨1, "X", "499", "N/A", "N/A", "N/A", "N/A", "N/A", "N/A", "N/A", "s", "t"⟩
      = false :=
  C10_short_name_dropped
    ⟨1, "X", "499", "N/A", "N/A", "N/A", "N/A", "N/A", "N/A", "N/A", "s", "t"⟩
    (by decide) (by decide)

/-- C4 counterexample: with a configured cleanup regex (field type
`css`), a winning raw value `"raw"` whose regex match is `"a  b"` (two
internal spaces, as a Python `re.search` group can contain) is returned
by `extract_field` exactly as matched, while the claimed
normalize-after-cleanup pipeline would collapse it to `"a b"` — the code
skips normalization on a nonempty cleanup result. -/
theorem C4_counterexample :
    extract_field (fun _ => "raw")
        (fun p t => if p = "pat" && t = "raw" then some "a  b" else none)
        ⟨["A"], some "css", none, some "pat"⟩ = "a  b" ∧
    clean_text (clean_with_regex
        (fun p t => if p = "pat" && t = "raw" then some "a  b" else none)
        "raw" "pat") = "a b" ∧
    ("a  b" : String) ≠ "a b" := by
  refine ⟨by decide, by decide, by decide⟩

/-- C4 as amended: when a cleanup regex is configured and the winning
strategy is not regex-typed, the cleanup regex is applied to the raw
winning value; a nonempty cleanup result is returned as-is, without
whitespace normalization, and only when the cleanup result is empty is
the raw value normalized by collapsing internal whitespace runs to
single spaces and trimming; the raw value `" 12,999 \n\t"` normalizes to
`"12,999"` under that `clean_text` normalization. -/
theorem C4_cleanup_amended :
    (∀ (rawOf : String → String) (search : String → String → Option String)
       (cfg : FieldConfig) (pre post : List String) (s pat : String),
       cfg.selectors = pre ++ s :: post →
       (∀ t ∈ pre, rawOf t = "" ∨ rawOf t = "N/A") →
       rawOf s ≠ "" → rawOf s ≠ "N/A" →
       cfg.regex = some pat → pat ≠ "" → cfg.ftype.getD "css" ≠ "regex" →
       extract_field rawOf search cfg =
         (if clean_with_regex search (rawOf s) pat ≠ ""
          then clean_with_regex search (rawOf s) pat
          else clean_text (rawOf s))) ∧
    clean_text " 12,999 \n\t" = "12,999" := by
  constructor
  · intro rawOf search cfg pre post s pat hsel hpre h1 h2 hrx hpat hty
    rw [C1_fallback_determinism.1 rawOf search cfg pre post s hsel hpre h1 h2]
    unfold postprocess
    rw [hrx]
    simp [hpat, hty]
  · decide

/-- Witness for C4's amended statement: a cleanup regex isolating
`"12,999"` out of `"Price: 12,999 only"` wins unchanged. -/
theorem C4_cleanup_amended_witness :
    extract_field (fun _ => "Price: 12,999 only")
        (fun p t => if p = "num" && t = "Price: 12,999 only"
                    then some "12,999" else none)
        ⟨["A"], some "css", none, some "num"⟩ = "12,999" ∧
    clean_text " 12,999 \n\t" = "12,999" := by
  constructor
  · have h := C4_cleanup_amended.1 (fun _ => "Price: 12,999 only")
      (fun p t => if p = "num" && t = "Price: 12,999 only"
                  then some "12,999" else none)
      ⟨["A"], some "css", none, some "num"⟩ [] [] "A" "num" rfl (by simp)
      (by decide) (by decide) rfl (by decide) (by decide)
    rw [h]; decide
  · exact C4_cleanup_amended.2

/-- C5: for every nonempty record list the report's overall score is the
unweighted mean of the nine per-field success rates; the overall status
is EXCELLENT at score ≥ 90, GOOD on [80, 90), NEEDS_IMPROVEMENT on
[60, 80) and POOR below 60; and per-field rates 90 and 50 average to an
overall score of 70, with status NEEDS_IMPROVEMENT.  (Report
percentages are modelled as exact rationals; the source's one-decimal
string formatting round trip is identity on these figures.) -/
theorem C5_overall_health :
    (∀ records : List ProductRecord, records ≠ [] →
       overall_score records =
         (fieldNames.map (success_rate records)).sum / 9) ∧
    (∀ q : ℚ,
       (90 ≤ q → overall_status q = "EXCELLENT") ∧
       (80 ≤ q → q < 90 → overall_status q = "GOOD") ∧
       (60 ≤ q → q < 80 → overall_status q = "NEEDS_IMPROVEMENT") ∧
       (q < 60 → overall_status q = "POOR")) ∧
    overall_from_scores [90, 50] = 70 ∧
    overall_status (overall_from_scores [90, 50]) = "NEEDS_IMPROVEMENT" := by
  have h70 : overall_from_scores [90, 50] = 70 := by
    unfold overall_from_scores
    rw [if_neg (by simp : ¬([90, 50] : List ℚ) = [])]
    norm_num
  refine ⟨?_, ?_, h70, ?_⟩
  · intro records _
    simp [overall_score, overall_from_scores, fieldNames]
  · intro q
    refine ⟨?_, ?_, ?_, ?_⟩ <;> intros <;> unfold overall_status <;>
      split_ifs <;> first | rfl | linarith
  · rw [h70]
    unfold overall_status
    norm_num

/-- Witness for C5: one concrete record list (all fields valid) has
overall score 100, the mean of its nine per-field rates; and the status
thresholds at concrete scores. -/
theorem C5_overall_health_witness :
    overall_score
        [⟨1, "Widget A", "499", "999", "4.5", "12", "50%", "o", "d", "in", "s", "t"⟩] =
      (fieldNames.map (success_rate
        [⟨1, "Widget A", "499", "999", "4.5", "12", "50%", "o", "d", "in", "s", "t"⟩])).sum / 9 ∧
    overall_status 95 = "EXCELLENT" ∧ overall_status 85 = "GOOD" ∧
    overall_status 70 = "NEEDS_IMPROVEMENT" ∧ overall_status 30 = "POOR" := by
  refine ⟨C5_overall_health.1 _ (by simp), ?_, ?_, ?_, ?_⟩
  · exact (C5_overall_health.2.1 95).1 (by norm_num)
  · exact (C5_overall_health.2.1 85).2.1 (by norm_num) (by norm_num)
  · exact (C5_overall_health.2.1 70).2.2.1 (by norm_num) (by norm_num)
  · exact (C5_overall_health.2.1 30).2.2.2 (by norm_num)

/-! ### Helper lemmas for the numeric-rating analysis -/

/-- A digit character is not Python whitespace. -/
lemma isPySpace_false_of_isDigit (c : Char) (h : c.isDigit = true) :
    isPySpace c = false := by
  by_contra hc
  rw [Bool.not_eq_false] at hc
  unfold isPySpace at hc
  simp only [Bool.or_eq_true, decide_eq_true_eq] at hc
  rcases hc with ((((h1 | h1) | h1) | h1) | h1) | h1 <;> subst h1 <;>
    exact absurd h (by decide)

/-- Stripping keeps a list whose head is not whitespace nonempty. -/
lemma stripList_cons_ne_nil (c : Char) (cs : List Char)
    (h : isPySpace c = false) : stripList (c :: cs) ≠ [] := by
  unfold stripList
  intro hc
  rw [List.reverse_eq_nil_iff, List.dropWhile_eq_nil_iff] at hc
  have hd : List.dropWhile isPySpace (c :: cs) = c :: cs := by
    rw [List.dropWhile_cons, h]
    simp
  rw [hd] at hc
  have := hc c (by simp)
  rw [h] at this
  exact absurd this (by simp)

/-- A value beginning with a digit passes `_is_valid_data`. -/
lemma is_valid_data_of_leading_digit (v : String) (c : Char) (cs : List Char)
    (hv : v.data = c :: cs) (hc : c.isDigit = true) :
    is_valid_data v = true := by
  have h1 : v ≠ "N/A" := by
    intro h
    subst h
    have hN : ("N/A" : String).data = ['N', '/', 'A'] := rfl
    rw [hN] at hv
    injection hv with hh _
    subst hh
    exact absurd hc (by decide)
  have h2 : v ≠ "" := by
    intro h
    subst h
    simp at hv
  have h3 : stripStr v ≠ "" := by
    intro h
    unfold stripStr at h
    have : stripList v.data = [] := by
      have := congrArg String.data h
      simpa using this
    rw [hv] at this
    exact stripList_cons_ne_nil c cs (isPySpace_false_of_isDigit c hc) this
  unfold is_valid_data
  simp [h1, h2, h3]

/-- With a leading digit the `\d+\.?\d*` scan succeeds immediately. -/
lemma firstNumericToken_isSome_of_leading (c : Char) (cs : List Char)
    (hc : c.isDigit = true) : (firstNumericToken (c :: cs)).isSome = true := by
  unfold firstNumericToken
  simp only [hc, if_true]
  split <;> rfl

/-- A value in the valid rating range is in particular numeric. -/
lemma countsNumeric_of_countsValidRange (v : String)
    (h : countsValidRange v = true) : countsNumeric v = true := by
  unfold countsValidRange at h
  unfold countsNumeric
  cases hx : extract_numeric_value v with
  | none => rw [hx] at h; exact absurd h (by simp)
  | some q => simp [hx]

/-- The range-filtered numeric column counts exactly the records whose
rating satisfies the per-value range predicate. -/
lemma range_filter_length (records : List ProductRecord) :
    ((records.filterMap (fun r => extract_numeric_value r.rating)).filter
      (fun q => decide (0 ≤ q) && decide (q ≤ 5))).length =
    (records.filter (fun r => countsValidRange r.rating)).length := by
  induction records with
  | nil => rfl
  | cons r rs ih =>
    simp only [List.filterMap_cons, List.filter_cons]
    cases h : extract_numeric_value r.rating with
    | none =>
      have hc : countsValidRange r.rating = false := by
        unfold countsValidRange
        rw [h]
      simp only [hc, Bool.false_eq_true, if_false]
      exact ih
    | some q =>
      have hc : countsValidRange r.rating = (decide (0 ≤ q) && decide (q ≤ 5)) := by
        unfold countsValidRange
        rw [h]
      cases hb : (decide (0 ≤ q) && decide (q ≤ 5)) with
      | false => simp [List.filter_cons, hc, hb, ih]
      | true => simp [List.filter_cons, hc, hb, ih]

/-- `valid_range_count` (with its `rating_numeric > 0` guard) counts
exactly the records whose rating passes the range predicate. -/
lemma valid_range_count_eq (records : List ProductRecord) :
    valid_range_count records =
      (records.filter (fun r => countsValidRange r.rating)).length := by
  unfold valid_range_count
  split_ifs with hg
  · exact range_filter_length records
  · symm
    rw [List.length_eq_zero]
    by_contra hne
    obtain ⟨r, hr⟩ := List.exists_mem_of_ne_nil _ hne
    have hmem := List.mem_filter.mp hr
    have hnum := countsNumeric_of_countsValidRange _ hmem.2
    have : r ∈ records.filter (fun r => countsNumeric r.rating) :=
      List.mem_filter.mpr ⟨hmem.1, hnum⟩
    have : 0 < rating_numeric_count records := by
      unfold rating_numeric_count
      exact List.length_pos.mpr (fun hn => by rw [hn] at this; simp at this)
    omega

/-- C8: every rating value with a parseable leading numeric token counts
toward `numeric_extractions`, and it counts toward
`valid_range_extractions` exactly when that leading value lies in
`[0, 5]`; the two tallies count precisely the records satisfying those
per-value predicates; and `"6.2"` is numeric but out of range. -/
theorem C8_rating_range :
    (∀ (v : String) (c : Char) (cs : List Char),
       v.data = c :: cs → c.isDigit = true →
       countsNumeric v = true ∧
       (∀ tok, firstNumericToken v.data = some tok →
         (countsValidRange v = true ↔
           0 ≤ tokenToQ tok ∧ tokenToQ tok ≤ 5))) ∧
    (∀ records : List ProductRecord,
       rating_numeric_count records =
         (records.filter (fun r => countsNumeric r.rating)).length ∧
       valid_range_count records =
         (records.filter (fun r => countsValidRange r.rating)).length) ∧
    countsNumeric "6.2" = true ∧ countsValidRange "6.2" = false := by
  have h62 : extract_numeric_value "6.2" = some (tokenToQ (['6'], ['2'])) := by
    unfold extract_numeric_value
    rw [if_pos (by decide),
      show firstNumericToken ("6.2" : String).data = some (['6'], ['2']) from by decide]
    rfl
  have hrange : countsValidRange "6.2" = false := by
    unfold countsValidRange
    rw [h62]
    have hq : tokenToQ (['6'], ['2']) = 31 / 5 := by
      have h6 : ('6' : Char).toNat - 48 = 6 := by decide
      have h2 : ('2' : Char).toNat - 48 = 2 := by decide
      norm_num [tokenToQ, natOfDigits, h6, h2]
    rw [hq]
    norm_num
  refine ⟨?_, ?_, by decide, hrange⟩
  · intro v c cs hv hc
    have hvalid := is_valid_data_of_leading_digit v c cs hv hc
    constructor
    · unfold countsNumeric extract_numeric_value
      rw [if_pos hvalid, hv]
      have hs := firstNumericToken_isSome_of_leading c cs hc
      cases hft : firstNumericToken (c :: cs) with
      | none => rw [hft] at hs; simp at hs
      | some tok => simp
    · intro tok htok
      unfold countsValidRange extract_numeric_value
      rw [if_pos hvalid, htok]
      simp
  · intro records
    exact ⟨rfl, valid_range_count_eq records⟩

/-- Witness for C8 at the value `"6.2"`: it counts as numeric, and its
range membership reduces to `6.2 ≤ 5`, which fails. -/
theorem C8_rating_range_witness :
    countsNumeric "6.2" = true ∧
    (countsValidRange "6.2" = true ↔
      0 ≤ tokenToQ (['6'], ['2']) ∧ tokenToQ (['6'], ['2']) ≤ 5) := by
  have h := C8_rating_range.1 "6.2" '6' ['.', '2'] (by decide) (by decide)
  exact ⟨h.1, h.2 (['6'], ['2']) (by decide)⟩

/-! ### Helper lemmas for signature grouping -/

/-- Shorthand for the signature tuple type. -/
abbrev SigT := String × List String × Nat × Nat

/-- Every group of a map is labelled by its members' common signature. -/
def SigHomog (m : List (SigT × List DomEl)) : Prop :=
  ∀ p ∈ m, ∀ x ∈ p.2, signature x = p.1

/-- The key list of a signature map. -/
def sigKeys (m : List (SigT × List DomEl)) : List SigT :=
  m.map Prod.fst

/-- Membership of an element in the group labelled `s`. -/
def inKey (m : List (SigT × List DomEl)) (s : SigT) (x : DomEl) : Prop :=
  ∃ g, (s, g) ∈ m ∧ x ∈ g

lemma sigHomog_insertSig (m : List (SigT × List DomEl)) (e : DomEl)
    (h : SigHomog m) : SigHomog (insertSig m (signature e) e) := by
  induction m with
  | nil =>
    intro p hp x hx
    simp only [insertSig, List.mem_singleton] at hp
    subst hp
    simp only [List.mem_singleton] at hx
    subst hx
    rfl
  | cons hd rest ih =>
    obtain ⟨s0, g⟩ := hd
    simp only [insertSig]
    split_ifs with hs
    · intro p hp x hx
      rcases List.mem_cons.mp hp with rfl | hp'
      · rcases List.mem_append.mp hx with hx' | hx'
        · exact h (s0, g) (by simp) x hx'
        · simp only [List.mem_singleton] at hx'
          subst hx'
          exact hs.symm
      · exact h p (by simp [hp']) x hx
    · intro p hp x hx
      rcases List.mem_cons.mp hp with rfl | hp'
      · exact h (s0, g) (by simp) x hx
      · exact ih (fun q hq => h q (by simp [hq])) p hp' x hx

lemma sigKeys_insertSig (m : List (SigT × List DomEl)) (s : SigT) (e : DomEl) :
    sigKeys (insertSig m s e) =
      if s ∈ sigKeys m then sigKeys m else sigKeys m ++ [s] := by
  induction m with
  | nil => simp [insertSig, sigKeys]
  | cons hd rest ih =>
    obtain ⟨s0, g⟩ := hd
    by_cases hs : s0 = s
    · subst hs
      simp only [insertSig, if_pos rfl]
      simp [sigKeys]
    · simp only [insertSig, if_neg hs]
      have hks : sigKeys ((s0, g) :: insertSig rest s e) =
          s0 :: sigKeys (insertSig rest s e) := rfl
      have hk0 : sigKeys ((s0, g) :: rest) = s0 :: sigKeys rest := rfl
      rw [hks, ih, hk0]
      by_cases hm : s ∈ sigKeys rest
      · rw [if_pos hm, if_pos (by simp [hm])]
      · rw [if_neg hm, if_neg (by
          simp only [List.mem_cons, not_or]
          exact ⟨fun h => hs h.symm, hm⟩)]
        rfl

lemma sigKeys_nodup_insertSig (m : List (SigT × List DomEl)) (s : SigT)
    (e : DomEl) (h : (sigKeys m).Nodup) : (sigKeys (insertSig m s e)).Nodup := by
  rw [sigKeys_insertSig]
  split_ifs with hs
  · exact h
  · simp [List.nodup_append, h, hs]

lemma inKey_insertSig_self (m : List (SigT × List DomEl)) (s : SigT)
    (e : DomEl) : inKey (insertSig m s e) s e := by
  induction m with
  | nil => exact ⟨[e], by simp [insertSig]⟩
  | cons hd rest ih =>
    obtain ⟨s0, g⟩ := hd
    simp only [insertSig]
    split_ifs with hs
    · subst hs
      exact ⟨g ++ [e], by simp⟩
    · obtain ⟨g', hg', he⟩ := ih
      exact ⟨g', by simp [hg'], he⟩

lemma inKey_insertSig_mono (m : List (SigT × List DomEl)) (s' : SigT)
    (e' : DomEl) (s : SigT) (x : DomEl) (h : inKey m s x) :
    inKey (insertSig m s' e') s x := by
  induction m with
  | nil =>
    obtain ⟨g, hg, _⟩ := h
    simp at hg
  | cons hd rest ih =>
    obtain ⟨s0, g0⟩ := hd
    obtain ⟨g, hg, hx⟩ := h
    rcases List.mem_cons.mp hg with heq | hg'
    · obtain ⟨h1, h2⟩ := Prod.mk.inj heq
      subst h1
      subst h2
      by_cases hs : s = s'
      · subst hs
        simp only [insertSig, if_pos rfl]
        exact ⟨g ++ [e'], List.mem_cons_self _ _, List.mem_append_left _ hx⟩
      · simp only [insertSig, if_neg hs]
        exact ⟨g, List.mem_cons_self _ _, hx⟩
    · by_cases hs : s0 = s'
      · simp only [insertSig, if_pos hs]
        exact ⟨g, List.mem_cons_of_mem _ hg', hx⟩
      · simp only [insertSig, if_neg hs]
        obtain ⟨g2, hg2, hx2⟩ := ih ⟨g, hg', hx⟩
        exact ⟨g2, List.mem_cons_of_mem _ hg2, hx2⟩

/-- Distinct keys determine the group uniquely. -/
lemma inKey_group_unique (m : List (SigT × List DomEl))
    (h : (sigKeys m).Nodup) (s : SigT) (g1 g2 : List DomEl)
    (h1 : (s, g1) ∈ m) (h2 : (s, g2) ∈ m) : g1 = g2 := by
  induction m with
  | nil => simp at h1
  | cons hd rest ih =>
    have hnd : hd.1 ∉ sigKeys rest ∧ (sigKeys rest).Nodup := by
      simpa [sigKeys] using h
    rcases List.mem_cons.mp h1 with rfl | h1'
    · rcases List.mem_cons.mp h2 with heq | h2'
      · exact ((Prod.mk.inj heq).2).symm
      · exact absurd (by simpa [sigKeys] using List.mem_map_of_mem Prod.fst h2')
          hnd.1
    · rcases List.mem_cons.mp h2 with rfl | h2'
      · exact absurd (by simpa [sigKeys] using List.mem_map_of_mem Prod.fst h1')
          hnd.1
      · exact ih hnd.2 h1' h2'

lemma build_go_homog (els : List DomEl) (m : List (SigT × List DomEl))
    (h : SigHomog m) :
    SigHomog (els.foldl (fun m e => insertSig m (signature e) e) m) := by
  induction els generalizing m with
  | nil => simpa using h
  | cons a rest ih => exact ih _ (sigHomog_insertSig m a h)

lemma build_go_nodup (els : List DomEl) (m : List (SigT × List DomEl))
    (h : (sigKeys m).Nodup) :
    (sigKeys (els.foldl (fun m e => insertSig m (signature e) e) m)).Nodup := by
  induction els generalizing m with
  | nil => simpa using h
  | cons a rest ih => exact ih _ (sigKeys_nodup_insertSig m (signature a) a h)

lemma build_go_mono (els : List DomEl) (m : List (SigT × List DomEl))
    (s : SigT) (x : DomEl) (h : inKey m s x) :
    inKey (els.foldl (fun m e => insertSig m (signature e) e) m) s x := by
  induction els generalizing m with
  | nil => simpa using h
  | cons a rest ih => exact ih _ (inKey_insertSig_mono m (signature a) a s x h)

lemma build_go_mem (els : List DomEl) (e : DomEl) (he : e ∈ els) :
    ∀ m : List (SigT × List DomEl),
      inKey (els.foldl (fun m e => insertSig m (signature e) e) m)
        (signature e) e := by
  induction els with
  | nil => simp at he
  | cons a rest ih =>
    intro m
    rcases List.mem_cons.mp he with rfl | h'
    · exact build_go_mono rest _ _ _ (inKey_insertSig_self m (signature e) e)
    · exact ih h' _

/-- C6: in `build_signature_map` two document elements share a group
exactly when their signatures `(tag, sorted class tokens, element-child
count, text bucket)` coincide; the bucket is `min 8 (textLen / 30)` (the
source's `max 0` is vacuous on naturals); and two elements identical in
tag, class tokens and child count fall into different groups with text
lengths 10 vs 40 (buckets 0 vs 1) but into the same group with text
lengths 10 vs 15 (both bucket 0). -/
theorem C6_signature_grouping :
    (∀ (els : List DomEl) (e1 e2 : DomEl), e1 ∈ els → e2 ∈ els →
       (sameGroup (build_signature_map els) e1 e2 ↔
         signature e1 = signature e2)) ∧
    (∀ e1 e2 : DomEl, e1.tag = e2.tag → classTokens e1 = classTokens e2 →
       e1.childElemCount = e2.childElemCount →
       ((textLen e1 = 10 → textLen e2 = 40 →
          textBucket e1 = 0 ∧ textBucket e2 = 1 ∧
            signature e1 ≠ signature e2) ∧
        (textLen e1 = 10 → textLen e2 = 15 →
          textBucket e1 = textBucket e2 ∧ signature e1 = signature e2))) ∧
    (∀ el : DomEl, textBucket el = min 8 (textLen el / 30)) := by
  refine ⟨?_, ?_, ?_⟩
  · intro els e1 e2 h1 h2
    constructor
    · rintro ⟨p, hp, hx1, hx2⟩
      have hh := build_go_homog els [] (by intro p hp; simp at hp)
      rw [hh p hp e1 hx1, hh p hp e2 hx2]
    · intro hsig
      have k1 := build_go_mem els e1 h1 []
      have k2 := build_go_mem els e2 h2 []
      rw [hsig] at k1
      obtain ⟨g1, hg1, he1⟩ := k1
      obtain ⟨g2, hg2, he2⟩ := k2
      have hnd := build_go_nodup els [] (by simp [sigKeys])
      have hgg := inKey_group_unique _ hnd (signature e2) g1 g2 hg1 hg2
      subst hgg
      exact ⟨(signature e2, g1), hg1, he1, he2⟩
  · intro e1 e2 ht hcl hcc
    constructor
    · intro h10 h40
      have b1 : textBucket e1 = 0 := by
        unfold textBucket
        rw [h10]
        decide
      have b2 : textBucket e2 = 1 := by
        unfold textBucket
        rw [h40]
        decide
      refine ⟨b1, b2, ?_⟩
      intro heq
      have h4 := congrArg (fun q : SigT => q.2.2.2) heq
      simp only [signature] at h4
      rw [b1, b2] at h4
      exact absurd h4 (by decide)
    · intro h10 h15
      have hb : textBucket e1 = textBucket e2 := by
        unfold textBucket
        rw [h10, h15]
      exact ⟨hb, by unfold signature; rw [ht, hcl, hcc, hb]⟩
  · intro el
    unfold textBucket
    simp

/-- Witness for C6: two concrete sibling-like elements with equal tag,
class tokens and child count and short texts share a signature and a
group. -/
theorem C6_signature_grouping_witness :
    signature ⟨"div", "a", 0, "hello"⟩ = signature ⟨"div", "a", 0, "world"⟩ ∧
    sameGroup
      (build_signature_map
        [⟨"div", "a", 0, "hello"⟩, ⟨"div", "a", 0, "world"⟩])
      ⟨"div", "a", 0, "hello"⟩ ⟨"div", "a", 0, "world"⟩ := by
  have hsig : signature (⟨"div", "a", 0, "hello"⟩ : DomEl) =
      signature ⟨"div", "a", 0, "world"⟩ := rfl
  exact ⟨hsig,
    (C6_signature_grouping.1 _ _ _ (by simp) (by simp)).mpr hsig⟩

/-- C7 counterexample: on a sample node where no rating xpath matches
but the `RATING_PAT` regex fallback finds `"4.5 out of 5"`, the sample
extractor reports the rating with confidence 0.9 — not the claimed 0.6 —
because the source computes `0.9 if rating else 0.0` on the final value
regardless of which strategy produced it. -/
theorem C7_counterexample :
    (extract_fields_from_node
        ⟨fun _ => none, [], none, some "4.5 out of 5", fun _ l => l⟩
        detect_field_hints none).rating = ⟨"4.5 out of 5", 9 / 10⟩ ∧
    ((9 : ℚ) / 10) ≠ 6 / 10 := by
  exact ⟨rfl, by norm_num⟩

/-- C7 as amended, covering all five fields of the sample extractor.
Title, price and rating try their strategies in order and the first
nonempty result wins with a fixed confidence: 0.9 for a structural-path
match, 0.6 for the currency-regex fallback of price, 0.9 (not 0.6) for
the rating-regex fallback, 0.5 for the title-only
longest-descendant-text fallback (longer than 7 characters).  Image and
link have no regex fallback and earn 0.9 exactly when the final value is
truthy, with relative values joined against the base URL; the image
chain halts at the first xpath returning a result list, so an empty
stripped value (e.g. `src=""`) stops the chain with value empty and
confidence 0 even when a later hint would produce a value.  In every
field, nothing matching gives value empty with confidence 0. -/
theorem C7_sample_confidences_amended :
    ∀ (nd : SNode) (hints : Hints) (base_url : Option String),
      (∀ t, first_nonempty_xpath nd
          (hints.title.filter (fun p => !(pyStartsWith p "regex:"))) = some t →
        (extract_fields_from_node nd hints base_url).title = ⟨t, 9 / 10⟩) ∧
      (first_nonempty_xpath nd
          (hints.title.filter (fun p => !(pyStartsWith p "regex:"))) = none →
        ∀ c, maxByLen ((nd.textNodes.map stripStr).filter (fun t => t ≠ "")) =
            some c →
          ((7 < c.length →
             (extract_fields_from_node nd hints base_url).title =
               ⟨stripStr c, 1 / 2⟩) ∧
           (c.length ≤ 7 →
             (extract_fields_from_node nd hints base_url).title = ⟨"", 0⟩))) ∧
      (∀ p, first_nonempty_xpath nd
          (hints.price.filter (fun q => !(pyStartsWith q "regex:"))) = some p →
        (extract_fields_from_node nd hints base_url).price = ⟨p, 9 / 10⟩) ∧
      (first_nonempty_xpath nd
          (hints.price.filter (fun q => !(pyStartsWith q "regex:"))) = none →
        ∀ p, nd.currencyMatch = some p → p ≠ "" →
          (extract_fields_from_node nd hints base_url).price = ⟨p, 6 / 10⟩) ∧
      (first_nonempty_xpath nd
          (hints.price.filter (fun q => !(pyStartsWith q "regex:"))) = none →
        nd.currencyMatch = none →
        (extract_fields_from_node nd hints base_url).price = ⟨"", 0⟩) ∧
      (∀ v, nd.xpEval ".//span[contains(@class,\"a-icon-alt\")]/text()" =
            some v → v ≠ "" →
        (extract_fields_from_node nd hints base_url).rating = ⟨v, 9 / 10⟩) ∧
      (nd.xpEval ".//span[contains(@class,\"a-icon-alt\")]/text()" = none →
        nd.xpEval ".//span[contains(@class,\"rating\")]/text()" = none →
        ∀ v, nd.ratingMatch = some v → v ≠ "" →
          (extract_fields_from_node nd hints base_url).rating = ⟨v, 9 / 10⟩) ∧
      (nd.xpEval ".//span[contains(@class,\"a-icon-alt\")]/text()" = none →
        nd.xpEval ".//span[contains(@class,\"rating\")]/text()" = none →
        nd.ratingMatch = none →
        (extract_fields_from_node nd hints base_url).rating = ⟨"", 0⟩) ∧
      (∀ img, firstXpathRaw nd hints.image = some img → img ≠ "" →
        (base_url = none ∨ pyStartsWith img "/" = false) →
        (extract_fields_from_node nd hints base_url).image = ⟨img, 9 / 10⟩) ∧
      (∀ img b, firstXpathRaw nd hints.image = some img → img ≠ "" →
        pyStartsWith img "/" = true → base_url = some b →
        (extract_fields_from_node nd hints base_url).image =
          ⟨nd.urljoin b img,
           if nd.urljoin b img ≠ "" then (9 : ℚ) / 10 else 0⟩) ∧
      (firstXpathRaw nd hints.image = some "" →
        (extract_fields_from_node nd hints base_url).image = ⟨"", 0⟩) ∧
      (firstXpathRaw nd hints.image = none →
        (extract_fields_from_node nd hints base_url).image = ⟨"", 0⟩) ∧
      (∀ l, nd.xpEval ".//a[1]/@href" = some l →
        (base_url = none ∨ pyStartsWith l "/" = false) →
        (extract_fields_from_node nd hints base_url).link =
          ⟨l, if l ≠ "" then (9 : ℚ) / 10 else 0⟩) ∧
      (∀ l b, nd.xpEval ".//a[1]/@href" = some l →
        pyStartsWith l "/" = true → base_url = some b →
        (extract_fields_from_node nd hints base_url).link =
          ⟨nd.urljoin b l,
           if nd.urljoin b l ≠ "" then (9 : ℚ) / 10 else 0⟩) ∧
      (nd.xpEval ".//a[1]/@href" = none →
        (extract_fields_from_node nd hints base_url).link = ⟨"", 0⟩) := by
  intro nd hints base_url
  refine ⟨?_, ?_, ?_, ?_, ?_, ?_, ?_, ?_, ?_, ?_, ?_, ?_, ?_, ?_, ?_⟩
  · intro t ht
    show extractTitle nd hints.title = _
    unfold extractTitle
    simp only [ht]
  · intro ht c hc
    constructor
    · intro hlen
      show extractTitle nd hints.title = _
      unfold extractTitle
      simp only [ht, hc]
      rw [if_pos (by omega)]
    · intro hlen
      show extractTitle nd hints.title = _
      unfold extractTitle
      simp only [ht, hc]
      rw [if_neg (by omega)]
  · intro p hp
    show extractPrice nd hints.price = _
    unfold extractPrice
    simp only [hp]
  · intro hp p hm hne
    show extractPrice nd hints.price = _
    unfold extractPrice
    simp only [hp, hm]
    simp [hne]
  · intro hp hm
    show extractPrice nd hints.price = _
    unfold extractPrice
    simp only [hp, hm]
  · intro v hv hne
    show extractRating nd = _
    unfold extractRating
    simp only [hv]
    simp [hne]
  · intro hA hB v hv hne
    show extractRating nd = _
    unfold extractRating
    simp only [hA, hB, hv]
    simp [hne]
  · intro hA hB hv
    show extractRating nd = _
    unfold extractRating
    simp only [hA, hB, hv]
  · intro img himg hne hcond
    show extractImage nd hints.image base_url = _
    unfold extractImage
    simp only [himg]
    rcases hcond with hb | hs
    · subst hb
      simp [hne]
    · cases base_url with
      | none => simp [hne]
      | some b => simp [hne, hs]
  · intro img b himg hne hs hb
    show extractImage nd hints.image base_url = _
    unfold extractImage
    simp only [himg, hb]
    simp [hne, hs]
  · intro himg
    show extractImage nd hints.image base_url = _
    unfold extractImage
    simp only [himg]
    cases base_url <;> simp
  · intro himg
    show extractImage nd hints.image base_url = _
    unfold extractImage
    simp only [himg]
  · intro l hl hcond
    show extractLink nd base_url = _
    unfold extractLink
    simp only [hl]
    rcases hcond with hb | hs
    · subst hb
      simp
    · cases base_url with
      | none => simp
      | some b => simp [hs]
  · intro l b hl hs hb
    show extractLink nd base_url = _
    unfold extractLink
    simp only [hl, hb]
    simp [hs]
  · intro hl
    show extractLink nd base_url = _
    unfold extractLink
    simp only [hl]

/-- Witness for C7's amended statement: a concrete node hit only by the
price-regex fallback yields confidence 0.6, one hit only by the
rating-regex fallback yields confidence 0.9, and a node whose first
image hint resolves to `src=""` halts the image chain at confidence 0
even though the `data-src` hint would have produced a value. -/
theorem C7_sample_confidences_amended_witness :
    (extract_fields_from_node
        ⟨fun _ => none, [], some "₹499", none, fun _ l => l⟩
        detect_field_hints none).price = ⟨"₹499", 6 / 10⟩ ∧
    (extract_fields_from_node
        ⟨fun _ => none, [], none, some "4.9/5", fun _ l => l⟩
        detect_field_hints none).rating = ⟨"4.9/5", 9 / 10⟩ ∧
    (extract_fields_from_node
        ⟨fun xp => if xp = ".//img[1]/@src" then some ""
                   else if xp = ".//img[1]/@data-src" then some "http://x/i.png"
                   else none,
         [], none, none, fun _ l => l⟩
        detect_field_hints none).image = ⟨"", 0⟩ := by
  refine ⟨?_, ?_, ?_⟩
  · exact (C7_sample_confidences_amended
      ⟨fun _ => none, [], some "₹499", none, fun _ l => l⟩
      detect_field_hints none).2.2.2.1 (by decide) "₹499" rfl (by decide)
  · exact (C7_sample_confidences_amended
      ⟨fun _ => none, [], none, some "4.9/5", fun _ l => l⟩
      detect_field_hints none).2.2.2.2.2.2.1 (by decide) (by decide) "4.9/5"
      rfl (by decide)
  · exact (C7_sample_confidences_amended
      ⟨fun xp => if xp = ".//img[1]/@src" then some ""
                 else if xp = ".//img[1]/@data-src" then some "http://x/i.png"
                 else none,
       [], none, none, fun _ l => l⟩
      detect_field_hints none).2.2.2.2.2.2.2.2.2.2.1 (by decide)

/-- A record with its capture stamp blanked, for comparing runs. -/
def eraseStamp (r : ProductRecord) : ProductRecord :=
  { r with scraped_at := "" }

/-- The filtered-and-mapped record pipeline agrees across clock readings
once the stamp is blanked: only `scraped_at` carries the clock. -/
lemma parse_pipeline_erase_eq {C : Type}
    (raw : C → FieldConfig → String → String)
    (search : String → String → Option String) (sc : SelectorConfig)
    (site now1 now2 : String) :
    ∀ ps : List (Nat × C),
      ((ps.map (fun p =>
          extract_product_data (raw p.2) search sc site now1 (p.1 + 1))).filter
        (fun r => validate_product_data r)).map eraseStamp =
      ((ps.map (fun p =>
          extract_product_data (raw p.2) search sc site now2 (p.1 + 1))).filter
        (fun r => validate_product_data r)).map eraseStamp := by
  intro ps
  induction ps with
  | nil => rfl
  | cons p rest ih =>
    simp only [List.map_cons, List.filter_cons]
    rw [show validate_product_data
        (extract_product_data (raw p.2) search sc site now2 (p.1 + 1)) =
      validate_product_data
        (extract_product_data (raw p.2) search sc site now1 (p.1 + 1)) from rfl]
    cases hb : validate_product_data
        (extract_product_data (raw p.2) search sc site now1 (p.1 + 1)) with
    | false => simpa using ih
    | true =>
      simp only [if_true, List.map_cons]
      rw [show eraseStamp
          (extract_product_data (raw p.2) search sc site now2 (p.1 + 1)) =
        eraseStamp
          (extract_product_data (raw p.2) search sc site now1 (p.1 + 1)) from rfl]
      rw [ih]

/-- C9 counterexample: the same HTML (one container matched by
`div.p`), the same SelectorSpec and the same site label, run at two
different clock readings, produce different ProductRecord lists — the
records disagree on the stamped `scraped_at` field, so "identical in all
twelve fields across repeated runs" fails. -/
theorem C9_counterexample :
    parse_products (fun s => if s = "div.p" then [()] else [])
        (fun _ _ _ => "Widget") (fun _ _ => none)
        { product_container := some ⟨some "css", some ["div.p"]⟩,
          name := some ⟨["a"], some "css", none, none⟩ }
        "amazon" "2025-01-01T00:00:00" ≠
      parse_products (fun s => if s = "div.p" then [()] else [])
        (fun _ _ _ => "Widget") (fun _ _ => none)
        { product_container := some ⟨some "css", some ["div.p"]⟩,
          name := some ⟨["a"], some "css", none, none⟩ }
        "amazon" "2025-01-01T00:00:01" := by
  decide

/-- C9 as amended: the engine is a pure function of HTML, SelectorSpec,
site label and clock reading — equal clock readings give identical
record lists — and across clock readings the lists agree on everything
except the `scraped_at` stamp (same records, same index order), each
surviving record being stamped with the run's site label and its own
capture timestamp. -/
theorem C9_determinism_amended :
    ∀ (C : Type) (query : String → List C)
      (raw : C → FieldConfig → String → String)
      (search : String → String → Option String) (sc : SelectorConfig)
      (site now1 now2 : String),
      (now1 = now2 →
        parse_products query raw search sc site now1 =
          parse_products query raw search sc site now2) ∧
      (parse_products query raw search sc site now1).map eraseStamp =
        (parse_products query raw search sc site now2).map eraseStamp ∧
      (∀ r ∈ parse_products query raw search sc site now1,
         r.site = site ∧ r.scraped_at = now1) := by
  intro C query raw search sc site now1 now2
  refine ⟨fun h => by rw [h], ?_, ?_⟩
  · unfold parse_products
    exact parse_pipeline_erase_eq raw search sc site now1 now2 _
  · intro r hr
    unfold parse_products at hr
    obtain ⟨hm, _⟩ := List.mem_filter.mp hr
    obtain ⟨p, _, hp⟩ := List.mem_map.mp hm
    rw [← hp]
    exact ⟨rfl, rfl⟩

/-- Witness for C9's amended statement at the counterexample's inputs:
the stamp-blanked lists coincide across the two clock readings. -/
theorem C9_determinism_amended_witness :
    (parse_products (fun s => if s = "div.p" then [()] else [])
        (fun _ _ _ => "Widget") (fun _ _ => none)
        { product_container := some ⟨some "css", some ["div.p"]⟩,
          name := some ⟨["a"], some "css", none, none⟩ }
        "amazon" "2025-01-01T00:00:00").map eraseStamp =
      (parse_products (fun s => if s = "div.p" then [()] else [])
        (fun _ _ _ => "Widget") (fun _ _ => none)
        { product_container := some ⟨some "css", some ["div.p"]⟩,
          name := some ⟨["a"], some "css", none, none⟩ }
        "amazon" "2025-01-01T00:00:01").map eraseStamp :=
  (C9_determinism_amended Unit _ _ _ _ "amazon"
    "2025-01-01T00:00:00" "2025-01-01T00:00:01").2.1

end Spec2Proof
